import Mathlib

/-!
Shallow embedding of the `sw4` crate (a struct-based wasm4 API layer) and
proofs about it.  Machine integers are modelled as `Nat` with explicit
masking / `% 2^w` where the Rust code can wrap; fallible operations
(indexing that can panic, reads of possibly-uninitialized storage) return
`Option`; calls to imported host functions are modelled as emitted events.
-/

/-- Extracts byte `i` (little-endian order) of a machine word. -/
def byteOf (w i : Nat) : Nat := w / 256 ^ i % 256

/-- Semantics of Rust `u32::from_le_bytes [b0, b1, b2, b3]`. -/
def u32_from_le_bytes (b0 b1 b2 b3 : Nat) : Nat :=
  b0 + b1 * 256 + b2 * 65536 + b3 * 16777216

/-- Embeds `struct Color { r: u8, g: u8, b: u8 }` from `src/lib.rs`. -/
structure Color where
  r : Nat
  g : Nat
  b : Nat
deriving DecidableEq

/-- Embeds `Color::from_u32`: `let [b, g, r, _] = x.to_le_bytes(); Self { r, g, b }`.
`to_le_bytes` byte `i` of `x` is `x / 256^i % 256`. -/
def Color.from_u32 (x : Nat) : Color :=
  { r := x / 65536 % 256, g := x / 256 % 256, b := x % 256 }

/-- Embeds `Color::to_u32`: `u32::from_le_bytes([self.b, self.g, self.r, 0])`. -/
def Color.to_u32 (c : Color) : Nat :=
  u32_from_le_bytes c.b c.g c.r 0

/-- C5: for every 24-bit input the `Color` conversion round-trips
(`to_u32 (from_u32 c) = c`), the most significant output byte is always 0,
and `from_u32` discards the most significant byte of an arbitrary 32-bit
input (`from_u32 x = from_u32 (x &&& 0xFFFFFF)`). -/
theorem color_from_to_u32_roundtrip (c x r g b : Nat)
    (hc : c ≤ 16777215) (_hx : x < 4294967296)
    (hr : r < 256) (hg : g < 256) (hb : b < 256) :
    (Color.from_u32 c).to_u32 = c ∧
    byteOf (Color.to_u32 ⟨r, g, b⟩) 3 = 0 ∧
    Color.from_u32 x = Color.from_u32 (x &&& 16777215) := by
  have hmask : x &&& 16777215 = x % 16777216 := by
    have := Nat.and_pow_two_sub_one_eq_mod x 24
    norm_num at this
    exact this
  refine ⟨?_, ?_, ?_⟩
  · simp only [Color.from_u32, Color.to_u32, u32_from_le_bytes, byteOf]
    omega
  · simp only [Color.to_u32, u32_from_le_bytes, byteOf]
    omega
  · rw [hmask]
    simp only [Color.from_u32, Color.mk.injEq]
    omega

/-- Witness: the round-trip theorem applied at `c = 0xABCDEF`, `x = 0xFF123456`,
`r = g = b = 17`. -/
theorem color_from_to_u32_roundtrip_witness :
    (Color.from_u32 11259375).to_u32 = 11259375 ∧
    byteOf (Color.to_u32 ⟨17, 17, 17⟩) 3 = 0 ∧
    Color.from_u32 4279383126 = Color.from_u32 (4279383126 &&& 16777215) :=
  color_from_to_u32_roundtrip 11259375 4279383126 17 17 17
    (by decide) (by decide) (by decide) (by decide) (by decide)

/-- Embeds `enum DrawColor { Transparent = 0, A = 1, B = 2, C = 3, D = 4 }`. -/
inductive DrawColor where
  | Transparent
  | A
  | B
  | C
  | D
deriving DecidableEq

/-- The `u16` discriminant of a `DrawColor` (Rust `color as u16`). -/
def DrawColor.toU16 : DrawColor → Nat
  | .Transparent => 0
  | .A => 1
  | .B => 2
  | .C => 3
  | .D => 4

/-- Embeds `DrawColors::set_1` acting on the wrapped `u16` value:
`self.0 = (self.0 & 0b1111_1111_1111_0000) | (color as u16)`. -/
def DrawColors.set_1 (d v : Nat) : Nat := (d &&& 65520) ||| v

/-- Embeds `DrawColors::set_2`:
`self.0 = (self.0 & 0b1111_1111_0000_1111) | ((color as u16) << 4)`. -/
def DrawColors.set_2 (d v : Nat) : Nat := (d &&& 65295) ||| (v <<< 4)

/-- Embeds `DrawColors::set_3`:
`self.0 = (self.0 & 0b1111_0000_1111_1111) | ((color as u16) << 8)`. -/
def DrawColors.set_3 (d v : Nat) : Nat := (d &&& 61695) ||| (v <<< 8)

/-- Embeds `DrawColors::set_4`:
`self.0 = (self.0 & 0b0000_1111_1111_1111) | ((color as u16) << 12)`. -/
def DrawColors.set_4 (d v : Nat) : Nat := (d &&& 4095) ||| (v <<< 12)

/-- Helper: masking with a pattern that keeps the bits below `lo` and the bits
from `hi` up (within a 16-bit word) splits a 16-bit value arithmetically. -/
theorem and_mask_split (d lo hi : Nat) (hlh : lo ≤ hi) (hhi : hi ≤ 16) (hd : d < 65536) :
    d &&& ((2 ^ lo - 1) ||| ((2 ^ (16 - hi) - 1) <<< hi)) = d % 2 ^ lo + d / 2 ^ hi * 2 ^ hi := by
  have hb : d % 2 ^ lo < 2 ^ hi :=
    Nat.lt_of_lt_of_le (Nat.mod_lt d (Nat.two_pow_pos lo)) (Nat.pow_le_pow_right (by decide) hlh)
  have hsum : 2 ^ hi * (d / 2 ^ hi) + d % 2 ^ lo = ((d >>> hi) <<< hi) ||| (d % 2 ^ lo) := by
    rw [Nat.shiftRight_eq_div_pow, Nat.shiftLeft_eq, Nat.mul_comm (d / 2 ^ hi) (2 ^ hi)]
    exact Nat.mul_add_lt_is_or hb _
  rw [show d % 2 ^ lo + d / 2 ^ hi * 2 ^ hi = 2 ^ hi * (d / 2 ^ hi) + d % 2 ^ lo from by ring,
    hsum]
  apply Nat.eq_of_testBit_eq
  intro i
  simp only [Nat.testBit_and, Nat.testBit_or, Nat.testBit_shiftLeft, Nat.testBit_shiftRight,
    Nat.testBit_two_pow_sub_one, Nat.testBit_mod_two_pow]
  rcases Nat.lt_or_ge i lo with h1 | h1
  · have h2 : i < hi := Nat.lt_of_lt_of_le h1 hlh
    simp [h1, Nat.not_le.mpr h2]
  · rcases Nat.lt_or_ge i hi with h2 | h2
    · simp [Nat.not_lt.mpr h1, Nat.not_le.mpr h2]
    · rcases Nat.lt_or_ge i 16 with h3 | h3
      · have h4 : i - hi < 16 - hi := by omega
        have h5 : hi + (i - hi) = i := by omega
        simp [Nat.not_lt.mpr h1, h2, h4, h5]
      · have h4 : ¬(i - hi < 16 - hi) := by omega
        have h65 : (65536 : Nat) ≤ 2 ^ i := by
          have := Nat.pow_le_pow_right (show 0 < 2 by decide) h3
          norm_num at this
          exact this
        have h5 : d < 2 ^ i := Nat.lt_of_lt_of_le hd h65
        have h6 : hi + (i - hi) = i := by omega
        simp [h2, h4, Nat.not_lt.mpr h1, h6, Nat.testBit_lt_two_pow h5]

/-- Helper: an or with a value below `2 ^ k` adds it into the clear low bits. -/
theorem or_small_eq_add (a b k : Nat) (hb : b < 2 ^ k) : (2 ^ k * a) ||| b = 2 ^ k * a + b :=
  (Nat.mul_add_lt_is_or hb a).symm

/-- Arithmetic characterization of `DrawColors.set_1`. -/
theorem set_1_arith (d v : Nat) (hd : d < 65536) (hv : v < 16) :
    DrawColors.set_1 d v = d / 16 * 16 + v := by
  unfold DrawColors.set_1
  rw [show (65520 : Nat) = (2 ^ 0 - 1) ||| ((2 ^ (16 - 4) - 1) <<< 4) from by decide]
  rw [and_mask_split d 0 4 (by decide) (by decide) hd]
  have h1 : d % 2 ^ 0 + d / 2 ^ 4 * 2 ^ 4 = 2 ^ 4 * (d / 2 ^ 4) := by
    simp [Nat.mod_one, Nat.mul_comm]
  rw [h1, or_small_eq_add _ _ _ (show v < 2 ^ 4 from hv)]
  norm_num [Nat.mul_comm]

/-- Arithmetic characterization of `DrawColors.set_2`. -/
theorem set_2_arith (d v : Nat) (hd : d < 65536) (hv : v < 16) :
    DrawColors.set_2 d v = d / 256 * 256 + v * 16 + d % 16 := by
  unfold DrawColors.set_2
  rw [show (65295 : Nat) = (2 ^ 4 - 1) ||| ((2 ^ (16 - 8) - 1) <<< 8) from by decide]
  rw [and_mask_split d 4 8 (by decide) (by decide) hd]
  have h1 : d % 2 ^ 4 + d / 2 ^ 8 * 2 ^ 8 = (2 ^ 8 * (d / 2 ^ 8)) ||| (d % 2 ^ 4) := by
    rw [or_small_eq_add _ _ _ (show d % 2 ^ 4 < 2 ^ 8 by omega)]
    ring
  rw [h1, Nat.shiftLeft_eq, Nat.or_assoc]
  have h2 : (d % 2 ^ 4) ||| (v * 2 ^ 4) = 2 ^ 4 * v + d % 2 ^ 4 := by
    rw [Nat.or_comm, Nat.mul_comm v (2 ^ 4),
      or_small_eq_add _ _ _ (show d % 2 ^ 4 < 2 ^ 4 by omega)]
  rw [h2, or_small_eq_add _ _ _ (show 2 ^ 4 * v + d % 2 ^ 4 < 2 ^ 8 by omega)]
  ring_nf

/-- Arithmetic characterization of `DrawColors.set_3`. -/
theorem set_3_arith (d v : Nat) (hd : d < 65536) (hv : v < 16) :
    DrawColors.set_3 d v = d / 4096 * 4096 + v * 256 + d % 256 := by
  unfold DrawColors.set_3
  rw [show (61695 : Nat) = (2 ^ 8 - 1) ||| ((2 ^ (16 - 12) - 1) <<< 12) from by decide]
  rw [and_mask_split d 8 12 (by decide) (by decide) hd]
  have h1 : d % 2 ^ 8 + d / 2 ^ 12 * 2 ^ 12 = (2 ^ 12 * (d / 2 ^ 12)) ||| (d % 2 ^ 8) := by
    rw [or_small_eq_add _ _ _ (show d % 2 ^ 8 < 2 ^ 12 by omega)]
    ring
  rw [h1, Nat.shiftLeft_eq, Nat.or_assoc]
  have h2 : (d % 2 ^ 8) ||| (v * 2 ^ 8) = 2 ^ 8 * v + d % 2 ^ 8 := by
    rw [Nat.or_comm, Nat.mul_comm v (2 ^ 8),
      or_small_eq_add _ _ _ (show d % 2 ^ 8 < 2 ^ 8 by omega)]
  rw [h2, or_small_eq_add _ _ _ (show 2 ^ 8 * v + d % 2 ^ 8 < 2 ^ 12 by omega)]
  ring_nf

/-- Arithmetic characterization of `DrawColors.set_4`. -/
theorem set_4_arith (d v : Nat) :
    DrawColors.set_4 d v = v * 4096 + d % 4096 := by
  unfold DrawColors.set_4
  rw [show (4095 : Nat) = 2 ^ 12 - 1 from by decide]
  rw [Nat.and_pow_two_sub_one_eq_mod, Nat.shiftLeft_eq]
  rw [Nat.or_comm, Nat.mul_comm v (2 ^ 12),
    or_small_eq_add _ _ _ (show d % 2 ^ 12 < 2 ^ 12 by omega)]
  ring_nf

/-- C8: for every 16-bit `DrawColors` value and every `DrawColor` selector,
each setter `set_k` sets slot `k`'s 4-bit nibble to the selector and leaves
the nibbles of the other three slots unchanged (slot `k` occupies bits
`4*(k-1) .. 4*k-1`; slot `j`'s nibble of `x` is `x / 16^(j-1) % 16`). -/
theorem draw_colors_set_preserves_others (d : Nat) (hd : d < 65536) (c : DrawColor) :
    (DrawColors.set_1 d c.toU16 % 16 = c.toU16 ∧
     DrawColors.set_1 d c.toU16 / 16 % 16 = d / 16 % 16 ∧
     DrawColors.set_1 d c.toU16 / 256 % 16 = d / 256 % 16 ∧
     DrawColors.set_1 d c.toU16 / 4096 % 16 = d / 4096 % 16) ∧
    (DrawColors.set_2 d c.toU16 % 16 = d % 16 ∧
     DrawColors.set_2 d c.toU16 / 16 % 16 = c.toU16 ∧
     DrawColors.set_2 d c.toU16 / 256 % 16 = d / 256 % 16 ∧
     DrawColors.set_2 d c.toU16 / 4096 % 16 = d / 4096 % 16) ∧
    (DrawColors.set_3 d c.toU16 % 16 = d % 16 ∧
     DrawColors.set_3 d c.toU16 / 16 % 16 = d / 16 % 16 ∧
     DrawColors.set_3 d c.toU16 / 256 % 16 = c.toU16 ∧
     DrawColors.set_3 d c.toU16 / 4096 % 16 = d / 4096 % 16) ∧
    (DrawColors.set_4 d c.toU16 % 16 = d % 16 ∧
     DrawColors.set_4 d c.toU16 / 16 % 16 = d / 16 % 16 ∧
     DrawColors.set_4 d c.toU16 / 256 % 16 = d / 256 % 16 ∧
     DrawColors.set_4 d c.toU16 / 4096 % 16 = c.toU16) := by
  have hv : c.toU16 < 16 := by cases c <;> decide
  rw [set_1_arith d c.toU16 hd hv, set_2_arith d c.toU16 hd hv,
    set_3_arith d c.toU16 hd hv, set_4_arith d c.toU16]
  omega

/-- Witness: the slot-preservation theorem applied at `d = 0x4321` and the
selector `DrawColor.D`. -/
theorem draw_colors_set_preserves_others_witness :
    (17185 : Nat) < 65536 ∧
    ((DrawColors.set_1 17185 DrawColor.D.toU16 % 16 = DrawColor.D.toU16 ∧
      DrawColors.set_1 17185 DrawColor.D.toU16 / 16 % 16 = 17185 / 16 % 16 ∧
      DrawColors.set_1 17185 DrawColor.D.toU16 / 256 % 16 = 17185 / 256 % 16 ∧
      DrawColors.set_1 17185 DrawColor.D.toU16 / 4096 % 16 = 17185 / 4096 % 16) ∧
     (DrawColors.set_2 17185 DrawColor.D.toU16 % 16 = 17185 % 16 ∧
      DrawColors.set_2 17185 DrawColor.D.toU16 / 16 % 16 = DrawColor.D.toU16 ∧
      DrawColors.set_2 17185 DrawColor.D.toU16 / 256 % 16 = 17185 / 256 % 16 ∧
      DrawColors.set_2 17185 DrawColor.D.toU16 / 4096 % 16 = 17185 / 4096 % 16) ∧
     (DrawColors.set_3 17185 DrawColor.D.toU16 % 16 = 17185 % 16 ∧
      DrawColors.set_3 17185 DrawColor.D.toU16 / 16 % 16 = 17185 / 16 % 16 ∧
      DrawColors.set_3 17185 DrawColor.D.toU16 / 256 % 16 = DrawColor.D.toU16 ∧
      DrawColors.set_3 17185 DrawColor.D.toU16 / 4096 % 16 = 17185 / 4096 % 16) ∧
     (DrawColors.set_4 17185 DrawColor.D.toU16 % 16 = 17185 % 16 ∧
      DrawColors.set_4 17185 DrawColor.D.toU16 / 16 % 16 = 17185 / 16 % 16 ∧
      DrawColors.set_4 17185 DrawColor.D.toU16 / 256 % 16 = 17185 / 256 % 16 ∧
      DrawColors.set_4 17185 DrawColor.D.toU16 / 4096 % 16 = DrawColor.D.toU16)) :=
  ⟨by decide, draw_colors_set_preserves_others 17185 (by decide) DrawColor.D⟩

/-- Bitwise complement of a `u8` value (Rust `!mask` at type `u8`). -/
def u8not (m : Nat) : Nat := m ^^^ 255

/-- Embeds `struct FrameBuffer { buf: [u8; (160 * 160) / 4] }`; the byte array
is modelled as a function from index to byte value. -/
structure FrameBuffer where
  buf : Nat → Nat

/-- Embeds `FrameBuffer::pixel(x, y)` from `src/lib.rs`:
```
let color = unsafe { (0x14 as *const u8).read() } & 0b1111;
if color == 0 { return; }
let color = (color - 1) & 0b11;
let idx = (y as usize * 40) + (x as usize >> 2);
let shift = (x as u8 & 0b11) << 1;
let mask = !(0b11 << shift);
self.buf[idx] = (color << shift) | (self.buf[idx] & !mask);
```
Address `0x14` is the first byte of `Wasm4.draw_colors` (the `Wasm4` image
starts at address 4 after the 16-byte palette), so the raw read yields the low
byte of the `DrawColors` `u16`, passed here as `drawColors % 256`.  The
in-range coordinates of the claims make `as usize` and `as u8` casts of `x`
and `y` lossless; array indexing that would panic is modelled as `none`. -/
def FrameBuffer.pixel (drawColors : Nat) (fb : FrameBuffer) (x y : Nat) : Option FrameBuffer :=
  let color := drawColors % 256 &&& 15
  if color = 0 then some fb
  else
    let color := (color - 1) &&& 3
    let idx := y * 40 + x / 4
    let shift := ((x % 256) &&& 3) <<< 1
    let mask := u8not (3 <<< shift)
    if idx < 6400 then
      some ⟨fun i => if i = idx then (color <<< shift) ||| (fb.buf idx &&& u8not mask) else fb.buf i⟩
    else none

/-- Reads the stored 2-bit value of pixel `(x, y)` out of a frame buffer
(byte `y*40 + x/4`, bits at shift `(x%4)*2`). -/
def pixelValue (fb : FrameBuffer) (x y : Nat) : Nat :=
  (fb.buf (y * 40 + x / 4) >>> ((x % 4) * 2)) &&& 3

/-- C1 (code bug): with draw-color slot 1 holding the non-transparent
selector 1 and every buffer byte `0xFF`, writing pixel `(0, 0)` changes the
sibling pixel `(1, 0)` packed into the same byte from 2-bit value 3 to 0:
the source computes `mask = !(0b11 << shift)` but then stores
`(color << shift) | (self.buf[idx] & !mask)`, whose double complement keeps
only the target pixel's old 2 bits and zeroes the 3 sibling pixels. -/
theorem pixel_clobbers_sibling_pixels :
    (1 : Nat) % 256 &&& 15 ≠ 0 ∧
    pixelValue ⟨fun _ => 255⟩ 1 0 = 3 ∧
    (FrameBuffer.pixel 1 ⟨fun _ => 255⟩ 0 0).map (fun fb => pixelValue fb 1 0) = some 0 := by
  decide

/-- C6 (code bug): with draw-color slot 1 holding selector 1 (re-based stored
color `(1 - 1) & 0b11 = 0`) and the target byte holding `0b0000_1100`, writing
pixel `(1, 0)` leaves the target 2-bit slot at 3 instead of storing 0: the
stored byte is `(color << shift) | (old & (0b11 << shift))`, which ors the new
color into the pixel's old 2 bits instead of replacing them. -/
theorem pixel_write_ors_old_bits :
    ((1 : Nat) - 1) &&& 3 = 0 ∧
    (FrameBuffer.pixel 1 ⟨fun _ => 12⟩ 1 0).map (fun fb => pixelValue fb 1 0) = some 3 := by
  decide

/-- C10: for in-range coordinates `x < 160`, `y < 160` the byte index
`y*40 + x/4` computed by `FrameBuffer.pixel` is below 6400, the length of the
frame-buffer array, so the write never indexes out of bounds (never panics). -/
theorem pixel_index_inbounds (dc : Nat) (fb : FrameBuffer) (x y : Nat)
    (hx : x < 160) (hy : y < 160) :
    y * 40 + x / 4 < 6400 ∧ (FrameBuffer.pixel dc fb x y).isSome = true := by
  have hidx : y * 40 + x / 4 < 6400 := by omega
  refine ⟨hidx, ?_⟩
  unfold FrameBuffer.pixel
  by_cases h : dc % 256 &&& 15 = 0
  · simp [h]
  · simp [h, hidx]

/-- Witness: the in-bounds theorem applied at the spec scenario pixel
`(10, 10)` with draw colors `1` and an all-zero buffer. -/
theorem pixel_index_inbounds_witness :
    (10 : Nat) < 160 ∧
    (10 * 40 + 10 / 4 < 6400 ∧
      (FrameBuffer.pixel 1 ⟨fun _ => 0⟩ 10 10).isSome = true) :=
  ⟨by decide, pixel_index_inbounds 1 ⟨fun _ => 0⟩ 10 10 (by decide) (by decide)⟩

/-- Events emitted to the host: the imported functions the shims delegate to.
The `diskr`/`diskw` constructors are modelled from the spec: their extern
declarations are absent from `src/raw_api.rs` (only `Disk::read`/`Disk::write`
call them); the spec's external-interface list gives their signatures as
`diskr(ptr, len)` and `diskw(ptr, len)`. -/
inductive Event where
  | blit (ptr : Nat) (x y : Int) (width height flags : Nat)
  | traceUtf8 (msg : String)
  | tone (frequency duration volume flags : Nat)
  | diskr (ptr len : Nat)
  | diskw (ptr len : Nat)
deriving DecidableEq

/-- Result of running a host-call shim: the host calls it made, in order, and
whether it aborted (reached `core::arch::wasm32::unreachable`). -/
structure ShimResult where
  events : List Event
  halted : Bool
deriving DecidableEq

/-- A Rust byte slice `&[u8]`: a base pointer plus its bytes. -/
structure ByteBuf where
  ptr : Nat
  data : List Nat
deriving DecidableEq

/-- Embeds `pub fn trace(s: &str)`: delegates to the `traceUtf8` host import. -/
def trace (s : String) : ShimResult := ⟨[Event.traceUtf8 s], false⟩

/-- Embeds `pub fn panic(s: &str) -> !`: `trace(s)` then
`core::arch::wasm32::unreachable()`, i.e. the trace event is emitted and
execution halts. -/
def panicShim (s : String) : ShimResult := ⟨(trace s).events, true⟩

/-- Embeds `pub fn assert(x: bool, s: &str)`: `if !x { panic(s) }`. -/
def assertShim (x : Bool) (s : String) : ShimResult :=
  if x then ⟨[], false⟩ else panicShim s

/-- Embeds `FrameBuffer::sprite` from `src/lib.rs`:
```
assert((width * height) as usize
         <= sprite.len() * ((((!flags.0 & 1) + 1) * 4) as usize),
       "not enough sprite data");
unsafe { raw_api::blit(sprite.as_ptr(), x, y, width, height, flags.0) }
```
`width`, `height` and `flags` are `u32` and `usize` is 32-bit on wasm32, so
the products are taken `% 2^32`; `!flags.0` is the `u32` complement
`flags ^^^ (2^32 - 1)`.  If the assertion fails, `panic` traces the message
and halts, and `blit` is never called. -/
def FrameBuffer.sprite (spr : ByteBuf) (x y : Int) (width height flags : Nat) : ShimResult :=
  let a := assertShim
    (decide ((width * height) % 4294967296 ≤
      (spr.data.length * ((((flags ^^^ 4294967295) &&& 1) + 1) * 4)) % 4294967296))
    ("not enough sprite data")
  if a.halted then a
  else ⟨a.events ++ [Event.blit spr.ptr x y width height flags], false⟩

/-- Helper: complementing and masking with bit 0 flips the parity bit. -/
theorem xor_allones_and_one (f : Nat) : (f ^^^ 4294967295) &&& 1 = 1 - f % 2 := by
  rw [Nat.and_one_is_mod]
  have h2 := Nat.mod_two_eq_zero_or_one (f ^^^ 4294967295)
  have h3 : ((f ^^^ 4294967295) % 2 = 1) ↔ ¬(f % 2 = 1 ↔ (4294967295 : Nat) % 2 = 1) :=
    Nat.xor_mod_two_eq_one
  omega

/-- C4 (counterexample): the claim's required source length, `(width*height)`
pixels divided by 4 for a 1-bit-per-pixel sprite, is wrong: a 1bpp sprite
holds 8 pixels per byte.  With `width = 8`, `height = 1`, flags `0` (1bpp) and
a 1-byte slice, the slice is shorter than the claim's requirement
(`1 < 8*1/4`), yet `FrameBuffer::sprite` does not abort and calls the host
blit. -/
theorem sprite_required_len_claim_false :
    (0 : Nat) &&& 1 = 0 ∧
    (1 : Nat) < 8 * 1 / 4 ∧
    FrameBuffer.sprite ⟨0, [0]⟩ 0 0 8 1 0 = ⟨[Event.blit 0 0 0 8 1 0], false⟩ := by
  decide

/-- C4 (amended): `FrameBuffer.sprite` checks `width*height <= len*8` for a
1-bit-per-pixel sprite (flag bit 0 clear) and `width*height <= len*4` for a
2-bit-per-pixel sprite; when the check fails the call emits the diagnostic
trace message and halts without ever calling the host blit, and otherwise it
calls the host blit with the given arguments. -/
theorem sprite_capacity_check (spr : ByteBuf) (x y : Int) (width height flags : Nat)
    (hw : width < 65536) (hh : height < 65536) (hlen : spr.data.length < 536870912) :
    (width * height ≤ spr.data.length * (if flags % 2 = 0 then 8 else 4) →
      FrameBuffer.sprite spr x y width height flags =
        ⟨[Event.blit spr.ptr x y width height flags], false⟩) ∧
    (spr.data.length * (if flags % 2 = 0 then 8 else 4) < width * height →
      FrameBuffer.sprite spr x y width height flags =
        ⟨[Event.traceUtf8 ("not enough sprite data")], true⟩) := by
  have hfac : (((flags ^^^ 4294967295) &&& 1) + 1) * 4 = if flags % 2 = 0 then 8 else 4 := by
    rw [xor_allones_and_one]
    rcases Nat.mod_two_eq_zero_or_one flags with h | h <;> simp [h]
  have hwh : (width * height) % 4294967296 = width * height :=
    Nat.mod_eq_of_lt (lt_of_lt_of_le (Nat.mul_lt_mul_of_lt_of_lt hw hh) (by norm_num))
  have hfl : (if flags % 2 = 0 then (8 : Nat) else 4) ≤ 8 := by split <;> omega
  have hlm : (spr.data.length * ((((flags ^^^ 4294967295) &&& 1) + 1) * 4)) % 4294967296 =
      spr.data.length * (if flags % 2 = 0 then 8 else 4) := by
    rw [hfac]
    exact Nat.mod_eq_of_lt (lt_of_le_of_lt (Nat.mul_le_mul_left _ hfl) (by omega))
  constructor
  · intro hle
    have hcond : decide ((width * height) % 4294967296 ≤
        (spr.data.length * ((((flags ^^^ 4294967295) &&& 1) + 1) * 4)) % 4294967296) = true :=
      decide_eq_true (by rw [hwh, hlm]; exact hle)
    unfold FrameBuffer.sprite assertShim
    simp only [hcond]
    simp
  · intro hlt
    have hcond : decide ((width * height) % 4294967296 ≤
        (spr.data.length * ((((flags ^^^ 4294967295) &&& 1) + 1) * 4)) % 4294967296) = false :=
      decide_eq_false (by rw [hwh, hlm]; exact Nat.not_le.mpr hlt)
    unfold FrameBuffer.sprite assertShim panicShim trace
    simp only [hcond]
    simp

/-- Witness: the amended capacity theorem applied to an 8x1 one-byte 1bpp
sprite, whose 8 pixels exactly fit the byte, so the host blit is called. -/
theorem sprite_capacity_check_witness :
    FrameBuffer.sprite ⟨0, [0]⟩ 0 0 8 1 0 = ⟨[Event.blit 0 0 0 8 1 0], false⟩ :=
  (sprite_capacity_check ⟨0, [0]⟩ 0 0 8 1 0 (by decide) (by decide) (by decide)).1 (by decide)

/-- Embeds `enum DutyCycle { Eighth = 0, Quarter = 1, Half = 2, ThreeQuarters = 3 }`. -/
inductive DutyCycle where
  | Eighth
  | Quarter
  | Half
  | ThreeQuarters
deriving DecidableEq

/-- The `u32` discriminant of a `DutyCycle` (Rust `dc as u32`). -/
def DutyCycle.toU32 : DutyCycle → Nat
  | .Eighth => 0
  | .Quarter => 1
  | .Half => 2
  | .ThreeQuarters => 3

/-- Embeds `enum Channel { Pulse1(DutyCycle), Pulse2(DutyCycle), Triangle, Noise }`. -/
inductive Channel where
  | Pulse1 (dc : DutyCycle)
  | Pulse2 (dc : DutyCycle)
  | Triangle
  | Noise
deriving DecidableEq

/-- Embeds `Channel::to_num` from `src/lib.rs`. -/
def Channel.to_num : Channel → Nat
  | .Pulse1 dc => dc.toU32 <<< 2
  | .Pulse2 dc => (dc.toU32 <<< 2) ||| 1
  | .Triangle => 2
  | .Noise => 3

/-- Embeds `struct Sound` (`u16` frequencies, `u8` envelope and volume
fields, plus the channel). -/
structure Sound where
  start_freq : Nat
  end_freq : Nat
  attack : Nat
  decay : Nat
  sustain : Nat
  release : Nat
  peak_vol : Nat
  sustain_vol : Nat
  channel : Channel
deriving DecidableEq

/-- Embeds `SoundSystem::play`:
```
let frequency = (start_freq as u32) | ((end_freq as u32) << 16);
let duration = u32::from_le_bytes([sustain, release, decay, attack]);
let volume = u32::from_le_bytes([sustain_vol, peak_vol, 0, 0]);
let flags = channel.to_num();
unsafe { raw_api::tone(frequency, duration, volume, flags) }
``` -/
def SoundSystem.play (s : Sound) : Event :=
  Event.tone (s.start_freq ||| (s.end_freq <<< 16))
    (u32_from_le_bytes s.sustain s.release s.decay s.attack)
    (u32_from_le_bytes s.sustain_vol s.peak_vol 0 0)
    s.channel.to_num

/-- C7: `SoundSystem::play` passes the host `tone` import a duration word
whose little-endian bytes are `[sustain, release, decay, attack]`, a volume
word whose bytes are `[sustain_vol, peak_vol, 0, 0]`, and a flags word equal
to `duty_cycle * 4` for `Pulse1`, `duty_cycle * 4 + 1` for `Pulse2`, `2` for
`Triangle` and `3` for `Noise`. -/
theorem play_tone_encoding (s : Sound)
    (ha : s.attack < 256) (hd : s.decay < 256) (hs : s.sustain < 256)
    (hr : s.release < 256) (hp : s.peak_vol < 256) (hv : s.sustain_vol < 256) :
    (byteOf (u32_from_le_bytes s.sustain s.release s.decay s.attack) 0 = s.sustain ∧
     byteOf (u32_from_le_bytes s.sustain s.release s.decay s.attack) 1 = s.release ∧
     byteOf (u32_from_le_bytes s.sustain s.release s.decay s.attack) 2 = s.decay ∧
     byteOf (u32_from_le_bytes s.sustain s.release s.decay s.attack) 3 = s.attack) ∧
    (byteOf (u32_from_le_bytes s.sustain_vol s.peak_vol 0 0) 0 = s.sustain_vol ∧
     byteOf (u32_from_le_bytes s.sustain_vol s.peak_vol 0 0) 1 = s.peak_vol ∧
     byteOf (u32_from_le_bytes s.sustain_vol s.peak_vol 0 0) 2 = 0 ∧
     byteOf (u32_from_le_bytes s.sustain_vol s.peak_vol 0 0) 3 = 0) ∧
    (s.channel.to_num = match s.channel with
      | .Pulse1 dc => dc.toU32 * 4
      | .Pulse2 dc => dc.toU32 * 4 + 1
      | .Triangle => 2
      | .Noise => 3) ∧
    SoundSystem.play s = Event.tone (s.start_freq ||| (s.end_freq <<< 16))
      (u32_from_le_bytes s.sustain s.release s.decay s.attack)
      (u32_from_le_bytes s.sustain_vol s.peak_vol 0 0)
      s.channel.to_num := by
  refine ⟨?_, ?_, ?_, rfl⟩
  · simp only [u32_from_le_bytes, byteOf]
    norm_num
    omega
  · simp only [u32_from_le_bytes, byteOf]
    norm_num
    omega
  · rcases s.channel with dc | dc | _ | _
    · cases dc <;> rfl
    · cases dc <;> rfl
    · rfl
    · rfl

/-- Witness: the tone-encoding theorem applied at the spec's example sound
(attack 1, decay 2, sustain 3, release 4, peak volume 200, sustain volume 50,
pulse 1 channel at quarter duty cycle). -/
theorem play_tone_encoding_witness :
    (byteOf (u32_from_le_bytes 3 4 2 1) 0 = 3 ∧
     byteOf (u32_from_le_bytes 3 4 2 1) 1 = 4 ∧
     byteOf (u32_from_le_bytes 3 4 2 1) 2 = 2 ∧
     byteOf (u32_from_le_bytes 3 4 2 1) 3 = 1) ∧
    (byteOf (u32_from_le_bytes 50 200 0 0) 0 = 50 ∧
     byteOf (u32_from_le_bytes 50 200 0 0) 1 = 200 ∧
     byteOf (u32_from_le_bytes 50 200 0 0) 2 = 0 ∧
     byteOf (u32_from_le_bytes 50 200 0 0) 3 = 0) ∧
    ((Channel.Pulse1 DutyCycle.Quarter).to_num = DutyCycle.Quarter.toU32 * 4) ∧
    SoundSystem.play ⟨100, 200, 1, 2, 3, 4, 200, 50, Channel.Pulse1 DutyCycle.Quarter⟩ =
      Event.tone (100 ||| (200 <<< 16)) (u32_from_le_bytes 3 4 2 1)
        (u32_from_le_bytes 50 200 0 0) (Channel.Pulse1 DutyCycle.Quarter).to_num :=
  play_tone_encoding ⟨100, 200, 1, 2, 3, 4, 200, 50, Channel.Pulse1 DutyCycle.Quarter⟩
    (by decide) (by decide) (by decide) (by decide) (by decide) (by decide)

/-- Embeds `Disk::read(buf)`: `unsafe { raw_api::diskr(buf.as_mut_ptr(), buf.len()) }`. -/
def Disk.read (buf : ByteBuf) : Event := Event.diskr buf.ptr buf.data.length

/-- Embeds `Disk::write(buf)`: `unsafe { raw_api::diskw(buf.as_ptr(), buf.len()) }`. -/
def Disk.write (buf : ByteBuf) : Event := Event.diskw buf.ptr buf.data.length

/-- C9: `Disk::read` and `Disk::write` delegate directly to the `diskr` and
`diskw` host imports with the slice's own pointer and exact length — no
clamping, capacity check or content validation happens in this layer, even
for lengths beyond the host's 1024-byte disk. -/
theorem disk_passthrough (buf : ByteBuf) :
    Disk.read buf = Event.diskr buf.ptr buf.data.length ∧
    Disk.write buf = Event.diskw buf.ptr buf.data.length ∧
    Disk.read ⟨buf.ptr, buf.data ++ List.replicate 2048 0⟩ =
      Event.diskr buf.ptr (buf.data.length + 2048) := by
  refine ⟨rfl, rfl, ?_⟩
  simp only [Disk.read, List.length_append, List.length_replicate]

/-- State of the lifecycle binding protocol generated by the `start`/`update`
attribute macros in `macros/src/lib.rs`: the guard byte at address 1, the
process-wide `SW4_USER_STATE` storage (`none` models
`MaybeUninit::uninit()`), and the `Wasm4` image at address 4 (abstracted as a
type parameter `μ`; the user state has type `σ`). -/
structure LifecycleState (μ σ : Type) where
  guard : Nat
  user : Option σ
  w4 : μ
deriving DecidableEq

/-- Embeds the generated `update` entry point:
```
if *(1 as *mut u8) != 1 { return; }
let state_v = &mut *(4 as *mut ::sw4::Wasm4);
let user_state_v = (&mut *(SW4_USER_STATE.get())).assume_init_mut();
(#func_name)(state, user_state)
```
The user cycle function is modelled as a pure transformer of the image and
user state; the returned `Bool` records whether it was invoked.  Reading the
user state when it was never initialized (`assume_init_mut` on uninitialized
storage) is undefined behavior, modelled as `none`. -/
def update {μ σ : Type} (f : μ → σ → μ × σ) (s : LifecycleState μ σ) :
    Option (LifecycleState μ σ × Bool) :=
  if s.guard ≠ 1 then some (s, false)
  else
    match s.user with
    | none => none
    | some u => some (⟨s.guard, some (f s.w4 u).2, (f s.w4 u).1⟩, true)

/-- Atomic stores performed by the generated `start` entry point on the
lifecycle-relevant cells. -/
inductive LcAction (σ : Type) where
  | storeUser (v : σ)
  | writeGuard (b : Nat)
deriving DecidableEq

/-- Applies a sequence of lifecycle stores in order. -/
def execActions {μ σ : Type} : LifecycleState μ σ → List (LcAction σ) → LifecycleState μ σ
  | s, [] => s
  | s, LcAction.storeUser v :: rest => execActions ⟨s.guard, some v, s.w4⟩ rest
  | s, LcAction.writeGuard b :: rest => execActions ⟨b, s.user, s.w4⟩ rest

/-- The ordered stores of the generated `start` entry point:
`SW4_USER_STATE.get().cast().write((#func_name)(state))` followed, as the
last action, by `(1 as *mut u8).write(1)`. -/
def startActions {μ σ : Type} (f : μ → μ × σ) (s : LifecycleState μ σ) : List (LcAction σ) :=
  [LcAction.storeUser (f s.w4).2, LcAction.writeGuard 1]

/-- Embeds the generated `start` entry point: the user setup function runs
first (mutating the `Wasm4` image and returning the initial user state), then
the stores of `startActions` are applied. -/
def start {μ σ : Type} (f : μ → μ × σ) (s : LifecycleState μ σ) : LifecycleState μ σ :=
  execActions ⟨s.guard, s.user, (f s.w4).1⟩ (startActions f s)

/-- States reachable from `s` by any number of `update` invocations (with
arbitrary user cycle functions). -/
inductive ReachableFrom {μ σ : Type} : LifecycleState μ σ → LifecycleState μ σ → Prop
  | refl (s : LifecycleState μ σ) : ReachableFrom s s
  | step {s t u : LifecycleState μ σ} {b : Bool} (f : μ → σ → μ × σ) :
      ReachableFrom s t → update f t = some (u, b) → ReachableFrom s u

/-- C2: whenever the guard byte differs from the sentinel 1, the generated
`update` entry point is a no-op: it returns the state unchanged, never
invokes the user cycle function, and never reads or constructs the stored
user-state value — in particular it is well-defined (no undefined behavior)
even when the storage is still uninitialized (`o = none`). -/
theorem update_guard_unset_noop {μ σ : Type} (f : μ → σ → μ × σ) (g : Nat) (o : Option σ)
    (m : μ) (hg : g ≠ 1) :
    update f ⟨g, o, m⟩ = some (⟨g, o, m⟩, false) := by
  unfold update
  simp [hg]

/-- Witness: the no-op theorem applied with guard byte 0, uninitialized user
storage and a concrete cycle function. -/
theorem update_guard_unset_noop_witness :
    (0 : Nat) ≠ 1 ∧
    update (fun (m u : Nat) => (m + u, u + 1)) ⟨0, none, 5⟩ = some (⟨0, none, 5⟩, false) :=
  ⟨by decide, update_guard_unset_noop (fun m u => (m + u, u + 1)) 0 none 5 (by decide)⟩

/-- C3: running the generated `start` entry point stores the user setup
function's return value into the user-state storage and, as its last action
after that store, writes the sentinel 1 to the guard byte; consequently every
state reachable after `start` completes has guard byte 1 and initialized
user-state storage. -/
theorem start_sets_guard_and_initializes {μ σ : Type} (f : μ → μ × σ)
    (s t : LifecycleState μ σ) (hreach : ReachableFrom (start f s) t) :
    startActions f s = [LcAction.storeUser (f s.w4).2, LcAction.writeGuard 1] ∧
    (startActions f s).getLast? = some (LcAction.writeGuard 1) ∧
    start f s = ⟨1, some (f s.w4).2, (f s.w4).1⟩ ∧
    t.guard = 1 ∧ t.user.isSome = true := by
  have hstart : start f s = ⟨1, some (f s.w4).2, (f s.w4).1⟩ := rfl
  refine ⟨rfl, rfl, hstart, ?_⟩
  have inv : ∀ (a b : LifecycleState μ σ), ReachableFrom a b →
      a.guard = 1 → a.user.isSome = true → b.guard = 1 ∧ b.user.isSome = true := by
    intro a b h
    induction h with
    | refl => exact fun h1 h2 => ⟨h1, h2⟩
    | step f0 hr hu ih =>
      intro h1 h2
      obtain ⟨hg, hsome⟩ := ih h1 h2
      rename_i t0 u0 b0
      obtain ⟨v0, hv0⟩ := Option.isSome_iff_exists.mp hsome
      have hupd : update f0 t0 = some (⟨t0.guard, some (f0 t0.w4 v0).2, (f0 t0.w4 v0).1⟩, true) := by
        unfold update
        rw [hv0]
        simp [hg]
      rw [hupd] at hu
      obtain ⟨hu1, hu2⟩ := Prod.mk.injEq .. ▸ Option.some.inj hu
      constructor
      · rw [← hu1]
        exact hg
      · rw [← hu1]
        rfl
  exact inv _ _ hreach (by rw [hstart]) (by rw [hstart]; rfl)

/-- Witness: the `start` theorem applied to a concrete setup function
(image `5 ↦ 6`, initial user state `7`) with the reachable state taken to be
the post-`start` state itself. -/
theorem start_sets_guard_and_initializes_witness :
    startActions (fun (m : Nat) => (m + 1, (7 : Nat))) ⟨0, none, 5⟩ =
      [LcAction.storeUser 7, LcAction.writeGuard 1] ∧
    (startActions (fun (m : Nat) => (m + 1, (7 : Nat))) ⟨0, none, 5⟩).getLast? =
      some (LcAction.writeGuard 1) ∧
    start (fun (m : Nat) => (m + 1, (7 : Nat))) ⟨0, none, 5⟩ = ⟨1, some 7, 6⟩ ∧
    (start (fun (m : Nat) => (m + 1, (7 : Nat))) (⟨0, none, 5⟩ : LifecycleState Nat Nat)).guard = 1 ∧
    (start (fun (m : Nat) => (m + 1, (7 : Nat))) (⟨0, none, 5⟩ : LifecycleState Nat Nat)).user.isSome = true :=
  start_sets_guard_and_initializes (fun m => (m + 1, 7)) ⟨0, none, 5⟩ _
    (ReachableFrom.refl _)
